import Mathlib

/-!
Verification of the request-encoding engine of a Telegram Bot API client.

The development is a shallow embedding of the Rust sources:
  - `src/types.rs`   : `InputFile`, `InputMedia` and the media-group rewrite
    (`prepare_input_media_param`, `prepare_input_media_file`);
  - `src/methods.rs` : the method-descriptor contract (`endpoint`, `params`,
    `files`) and concrete descriptors `SendPhoto`, `SendMediaGroup`;
  - `src/bot.rs`     : the dispatch engine (`BotApi::request`,
    `BotApi::upload_files`, `BotApi::make_request`), the response envelope
    (`APIResponse`, `Error`) and result unwrapping (`BotApi::send`).

JSON values are modelled by an inductive `Json` type; `serde_json`'s compact
textual rendering (the `Display` instance used by `Value::to_string()`) is
modelled by `Json.render`.  File-system access performed by
`tokio::fs::File::open` is modelled by an explicit map from paths to file
contents, so that `InputFile::data` becomes a pure function of that map.
Machine integers are modelled by `Int`/`Nat`; loop indices of the media-group
rewrite are `Nat` (the source uses a non-negative `i32` counter starting at 0).
-/

namespace Telegram

/-- JSON values, modelling `serde_json::Value` restricted to the shapes this
client produces (numbers appearing in the claims are integers). -/
inductive Json where
  | null : Json
  | bool (b : Bool) : Json
  | num (n : Int) : Json
  | str (s : String) : Json
  | arr (items : List Json) : Json
  | obj (fields : List (String × Json)) : Json
deriving Repr

/-- Lowercase hexadecimal digit, as used by serde_json's string escaper. -/
def hexDigitChar (n : Nat) : Char :=
  if n < 10 then Char.ofNat (48 + n) else Char.ofNat (87 + n)

/-- Escape of one character inside a JSON string literal, following
serde_json's serializer: quote and backslash get a backslash escape, the
control characters 8, 9, 10, 12, 13 get their short escapes, other control
characters below 32 get a lowercase \u00XX escape, everything else is kept. -/
def escapeChar (c : Char) : List Char :=
  if c.toNat = 34 then [Char.ofNat 92, Char.ofNat 34]
  else if c.toNat = 92 then [Char.ofNat 92, Char.ofNat 92]
  else if c.toNat = 8 then [Char.ofNat 92, Char.ofNat 98]
  else if c.toNat = 9 then [Char.ofNat 92, Char.ofNat 116]
  else if c.toNat = 10 then [Char.ofNat 92, Char.ofNat 110]
  else if c.toNat = 12 then [Char.ofNat 92, Char.ofNat 102]
  else if c.toNat = 13 then [Char.ofNat 92, Char.ofNat 114]
  else if c.toNat < 32 then
    [Char.ofNat 92, Char.ofNat 117, Char.ofNat 48, Char.ofNat 48,
     hexDigitChar (c.toNat / 16), hexDigitChar (c.toNat % 16)]
  else [c]

/-- Body of a JSON string literal: every character escaped. -/
def escapeString (s : String) : String :=
  String.mk (s.data.flatMap escapeChar)

/-- Decimal digits of a natural number, most significant first, with explicit
fuel (the fuel argument is an upper bound on the recursion depth; `n + 1` is
always enough, see `natDigits_eq`).  Models the decimal rendering used by
Rust's `format!` for the non-negative loop indices. -/
def digitsAux : Nat → Nat → List Char
  | 0, _ => []
  | fuel + 1, n =>
    if n < 10 then [Char.ofNat (48 + n)]
    else digitsAux fuel (n / 10) ++ [Char.ofNat (48 + n % 10)]
termination_by structural fuel => fuel

/-- Decimal digit list of `n`, most significant first. -/
def natDigits (n : Nat) : List Char :=
  digitsAux (n + 1) n

/-- Decimal rendering of a natural number, as produced by `format!("{}", n)`. -/
def natRepr (n : Nat) : String :=
  String.mk (natDigits n)

/-- Reading a digit list back as a number. -/
def digitsVal (l : List Char) : Nat :=
  l.foldl (fun a c => 10 * a + (c.toNat - 48)) 0


/-! ### Wire-value model (`src/types.rs`, enum `InputFile`)

The five variants of the `InputFile` enum, with `need_upload` and `data`.
The file system touched by `tokio::fs::File::open` is modelled as a map from
paths to file contents; file bytes are lists of naturals. -/

/-- The `InputFile` enum of `src/types.rs`: a value that may require physical
upload.  `fileID`, `fileURL` and `fileAttach` wrap an already-resolvable
string; `fileBytes` holds an in-memory named blob; `filePath` points at a
local file. -/
inductive InputFile where
  | fileID (id : String) : InputFile
  | fileURL (url : String) : InputFile
  | fileAttach (attach : String) : InputFile
  | fileBytes (file_name : String) (bytes : List Nat) : InputFile
  | filePath (path : String) : InputFile
deriving DecidableEq, Repr

/-- `InputFile::need_upload`: true exactly on `FileBytes` and `FilePath`. -/
def InputFile.need_upload : InputFile → Bool
  | .fileBytes _ _ => true
  | .filePath _ => true
  | _ => false

/-- A multipart binary part (`reqwest::multipart::Part`): the part's file name
and its byte content. -/
structure Part where
  file_name : String
  content : List Nat
deriving DecidableEq, Repr

/-- Result of `InputFile::data`: plain text, or a binary part to upload. -/
inductive InputFileResult where
  | text (s : String) : InputFileResult
  | part (p : Part) : InputFileResult
deriving DecidableEq, Repr

/-- Local-file failure: `tokio::fs::File::open` failed for the given path. -/
inductive IoError where
  | openFailed (path : String) : IoError
deriving DecidableEq, Repr

/-- The local file system, as seen by `tokio::fs::File::open`: `none` means
the open fails, `some bytes` means the file exists with those contents. -/
def Fs : Type := String → Option (List Nat)

/-- `InputFile::data` of `src/types.rs`.  The three reference variants return
their wrapped string unchanged; `FileBytes` yields a part named by its stored
file name; `FilePath` opens the local file (failure is propagated) and names
the part with the path string itself (`.file_name(path.to_string())`). -/
def InputFile.data (f : InputFile) (fs : Fs) : Except IoError InputFileResult :=
  match f with
  | .fileID id => .ok (.text id)
  | .fileURL url => .ok (.text url)
  | .fileAttach attach => .ok (.text attach)
  | .fileBytes file_name bytes => .ok (.part ⟨file_name, bytes⟩)
  | .filePath path =>
    match fs path with
    | some bytes => .ok (.part ⟨path, bytes⟩)
    | none => .error (.openFailed path)

/-! ### Synthetic attachment names (`src/types.rs`, `impl InputMedia`) -/

/-- `InputMedia::attach_file_name`: `format!("file-{}", idx)`. -/
def attach_file_name (idx : Nat) : String :=
  "file-" ++ natRepr idx

/-- `InputMedia::attach_thumb_file_name`: `format!("file-{}-thumb", idx)`. -/
def attach_thumb_file_name (idx : Nat) : String :=
  "file-" ++ natRepr idx ++ "-thumb"

/-- `InputMedia::attach_file`: `FileAttach(format!("attach://file-{}", idx))`. -/
def attach_file (idx : Nat) : InputFile :=
  .fileAttach ("attach://file-" ++ natRepr idx)

/-- `InputMedia::attach_thumb_file`:
`FileAttach(format!("attach://file-{}-thumb", idx))`. -/
def attach_thumb_file (idx : Nat) : InputFile :=
  .fileAttach ("attach://file-" ++ natRepr idx ++ "-thumb")

/-! ### Media items (`src/types.rs`, the `InputMedia*` structs)

Inert metadata fields that the rewrite only copies (captions, entities,
dimensions, flags) are carried with their source names; `caption_entities`
is kept as its serialized JSON form since the engine never inspects it. -/

/-- The `InputMediaPhoto` struct (no thumbnail field). -/
structure InputMediaPhoto where
  media : InputFile
  caption : Option String
  parse_mode : Option String
  caption_entities : Option Json
deriving Repr

/-- The `InputMediaVideo` struct. -/
structure InputMediaVideo where
  media : InputFile
  thumb : Option InputFile
  caption : Option String
  parse_mode : Option String
  caption_entities : Option Json
  width : Option Int
  height : Option Int
  duration : Option Int
  supports_streaming : Option Bool
deriving Repr

/-- The `InputMediaAnimation` struct. -/
structure InputMediaAnimation where
  media : InputFile
  thumb : Option InputFile
  caption : Option String
  parse_mode : Option String
  caption_entities : Option Json
  width : Option Int
  height : Option Int
  duration : Option Int
deriving Repr

/-- The `InputMediaAudio` struct. -/
structure InputMediaAudio where
  media : InputFile
  thumb : Option InputFile
  caption : Option String
  parse_mode : Option String
  caption_entities : Option Json
  duration : Option Int
  performer : Option String
  title : Option String
deriving Repr

/-- The `InputMediaDocument` struct. -/
structure InputMediaDocument where
  media : InputFile
  thumb : Option InputFile
  caption : Option String
  parse_mode : Option String
  caption_entities : Option Json
  disable_content_type_detection : Option Bool
deriving Repr

/-- `InputMediaPhoto::new`. -/
def InputMediaPhoto.new (media : InputFile) : InputMediaPhoto :=
  ⟨media, none, none, none⟩

/-- `InputMediaVideo::new`. -/
def InputMediaVideo.new (media : InputFile) : InputMediaVideo :=
  ⟨media, none, none, none, none, none, none, none, none⟩

/-- The tagged `InputMedia` enum of `src/types.rs`. -/
inductive InputMedia where
  | animation (a : InputMediaAnimation) : InputMedia
  | document (d : InputMediaDocument) : InputMedia
  | audio (a : InputMediaAudio) : InputMedia
  | photo (p : InputMediaPhoto) : InputMedia
  | video (v : InputMediaVideo) : InputMedia
deriving Repr

/-- Primary file reference of a media item (statement-side accessor). -/
def InputMedia.primaryOf : InputMedia → InputFile
  | .animation a => a.media
  | .document d => d.media
  | .audio a => a.media
  | .photo p => p.media
  | .video v => v.media

/-- Optional thumbnail reference of a media item (statement-side accessor;
`InputMediaPhoto` has no thumbnail field). -/
def InputMedia.thumbOf : InputMedia → Option InputFile
  | .animation a => a.thumb
  | .document d => d.thumb
  | .audio a => a.thumb
  | .photo _ => none
  | .video v => v.thumb

/-- `InputMedia::prepare_input_media_param` of `src/types.rs`: the per-item
rewrite used when JSON-encoding a media group.  For each non-photo kind the
primary reference is replaced by the synthetic attach token when it needs
upload; the thumbnail starts from `None` and is set to the synthetic thumb
token only when a thumbnail is present and needs upload (a present thumbnail
that does not need upload is therefore dropped).  A photo that does not need
upload is returned unchanged. -/
def InputMedia.prepare_input_media_param (m : InputMedia) (idx : Nat) :
    InputMedia :=
  match m with
  | .animation a =>
    let media := if a.media.need_upload then attach_file idx else a.media
    let thumb : Option InputFile :=
      match a.thumb with
      | some t => if t.need_upload then some (attach_thumb_file idx) else none
      | none => none
    .animation { a with media := media, thumb := thumb }
  | .document d =>
    let media := if d.media.need_upload then attach_file idx else d.media
    let thumb : Option InputFile :=
      match d.thumb with
      | some t => if t.need_upload then some (attach_thumb_file idx) else none
      | none => none
    .document { d with media := media, thumb := thumb }
  | .audio a =>
    let media := if a.media.need_upload then attach_file idx else a.media
    let thumb : Option InputFile :=
      match a.thumb with
      | some t => if t.need_upload then some (attach_thumb_file idx) else none
      | none => none
    .audio { a with media := media, thumb := thumb }
  | .photo p =>
    if ¬ p.media.need_upload then m
    else .photo { p with media := attach_file idx }
  | .video v =>
    let media := if v.media.need_upload then attach_file idx else v.media
    let thumb : Option InputFile :=
      match v.thumb with
      | some t => if t.need_upload then some (attach_thumb_file idx) else none
      | none => none
    .video { v with media := media, thumb := thumb }

/-- `InputMedia::prepare_input_media_file` of `src/types.rs`: the pending
upload parts of one media item, primary first, then the thumbnail, each
included exactly when it needs upload. -/
def InputMedia.prepare_input_media_file (m : InputMedia) (idx : Nat) :
    List (String × InputFile) :=
  match m with
  | .animation a =>
    (if a.media.need_upload then [(attach_file_name idx, a.media)] else []) ++
    (match a.thumb with
     | some t =>
       if t.need_upload then [(attach_thumb_file_name idx, t)] else []
     | none => [])
  | .document d =>
    (if d.media.need_upload then [(attach_file_name idx, d.media)] else []) ++
    (match d.thumb with
     | some t =>
       if t.need_upload then [(attach_thumb_file_name idx, t)] else []
     | none => [])
  | .audio a =>
    (if a.media.need_upload then [(attach_file_name idx, a.media)] else []) ++
    (match a.thumb with
     | some t =>
       if t.need_upload then [(attach_thumb_file_name idx, t)] else []
     | none => [])
  | .photo p =>
    if p.media.need_upload then [(attach_file_name idx, p.media)] else []
  | .video v =>
    (if v.media.need_upload then [(attach_file_name idx, v.media)] else []) ++
    (match v.thumb with
     | some t =>
       if t.need_upload then [(attach_thumb_file_name idx, t)] else []
     | none => [])

/-! ### Compact JSON rendering (serde_json's `Display` for `Value`) -/

mutual

/-- Compact textual JSON, as produced by `serde_json::Value::to_string()`:
no whitespace, strings quoted and escaped, object fields in order. -/
def Json.render : Json → String
  | .null => "null"
  | .bool true => "true"
  | .bool false => "false"
  | .num n => toString n
  | .str s => "\"" ++ escapeString s ++ "\""
  | .arr items => "[" ++ Json.renderItems items ++ "]"
  | .obj fields => "\x7b" ++ Json.renderFields fields ++ "\x7d"

/-- Comma-separated rendering of array elements. -/
def Json.renderItems : List Json → String
  | [] => ""
  | [x] => Json.render x
  | x :: y :: rest => Json.render x ++ "," ++ Json.renderItems (y :: rest)

/-- Comma-separated rendering of object fields. -/
def Json.renderFields : List (String × Json) → String
  | [] => ""
  | [(k, v)] => "\"" ++ escapeString k ++ "\":" ++ Json.render v
  | (k, v) :: y :: rest =>
    "\"" ++ escapeString k ++ "\":" ++ Json.render v ++ ","
      ++ Json.renderFields (y :: rest)

end

/-! ### Serialization of the request records (serde derive semantics)

A serialized struct is the ordered list of its fields, where an `Option`
field with `skip_serializing_if = "Option::is_none"` is omitted when `none`,
and a field marked `skip_serializing` is always omitted. -/

/-- One optional struct field: present exactly when the value is. -/
def optField (name : String) : Option Json → List (String × Json)
  | some v => [(name, v)]
  | none => []

/-- The untagged `ChatId` enum of `src/types.rs`. -/
inductive ChatId where
  | intType (id : Int) : ChatId
  | stringType (username : String) : ChatId
deriving DecidableEq, Repr

/-- Untagged serde serialization of `ChatId`. -/
def ChatId.toJson : ChatId → Json
  | .intType id => .num id
  | .stringType username => .str username

/-- Untagged serde serialization of `InputFile`: the three reference variants
and `FilePath` serialize as their wrapped string, `FileBytes` as the pair of
its name and bytes. -/
def InputFile.toJson : InputFile → Json
  | .fileID id => .str id
  | .fileURL url => .str url
  | .fileAttach attach => .str attach
  | .fileBytes file_name bytes =>
    .arr [.str file_name, .arr (bytes.map (fun b => Json.num (Int.ofNat b)))]
  | .filePath path => .str path

/-- Internally-tagged (`tag = "type"`) serde serialization of `InputMedia`,
with each variant's fields in declaration order and `None` options omitted. -/
def InputMedia.toJson : InputMedia → Json
  | .animation a =>
    .obj ([("type", .str "animation"), ("media", a.media.toJson)]
      ++ optField "thumb" (a.thumb.map InputFile.toJson)
      ++ optField "caption" (a.caption.map Json.str)
      ++ optField "parse_mode" (a.parse_mode.map Json.str)
      ++ optField "caption_entities" a.caption_entities
      ++ optField "width" (a.width.map Json.num)
      ++ optField "height" (a.height.map Json.num)
      ++ optField "duration" (a.duration.map Json.num))
  | .document d =>
    .obj ([("type", .str "document"), ("media", d.media.toJson)]
      ++ optField "thumb" (d.thumb.map InputFile.toJson)
      ++ optField "caption" (d.caption.map Json.str)
      ++ optField "parse_mode" (d.parse_mode.map Json.str)
      ++ optField "caption_entities" d.caption_entities
      ++ optField "disable_content_type_detection"
          (d.disable_content_type_detection.map Json.bool))
  | .audio a =>
    .obj ([("type", .str "audio"), ("media", a.media.toJson)]
      ++ optField "thumb" (a.thumb.map InputFile.toJson)
      ++ optField "caption" (a.caption.map Json.str)
      ++ optField "parse_mode" (a.parse_mode.map Json.str)
      ++ optField "caption_entities" a.caption_entities
      ++ optField "duration" (a.duration.map Json.num)
      ++ optField "performer" (a.performer.map Json.str)
      ++ optField "title" (a.title.map Json.str))
  | .photo p =>
    .obj ([("type", .str "photo"), ("media", p.media.toJson)]
      ++ optField "caption" (p.caption.map Json.str)
      ++ optField "parse_mode" (p.parse_mode.map Json.str)
      ++ optField "caption_entities" p.caption_entities)
  | .video v =>
    .obj ([("type", .str "video"), ("media", v.media.toJson)]
      ++ optField "thumb" (v.thumb.map InputFile.toJson)
      ++ optField "caption" (v.caption.map Json.str)
      ++ optField "parse_mode" (v.parse_mode.map Json.str)
      ++ optField "caption_entities" v.caption_entities
      ++ optField "width" (v.width.map Json.num)
      ++ optField "height" (v.height.map Json.num)
      ++ optField "duration" (v.duration.map Json.num)
      ++ optField "supports_streaming" (v.supports_streaming.map Json.bool))

/-! ### Method descriptors (`src/methods.rs`)

Every request type provides `endpoint()`, `params()` (its serialized
non-file fields, a map name to JSON value, here an association list with
distinct keys) and `files()` (its file slots).  `MethodDesc` packages the
three so the engine can be stated once, as in the `Methods` trait. -/

/-- A method descriptor: endpoint, ParameterMap and FileSlotSet, as exposed
by the `Methods` trait of `src/methods.rs`. -/
structure MethodDesc where
  endpoint : String
  params : List (String × Json)
  files : List (String × InputFile)

/-- `HashMap::insert` on an association list: replace the value when the key
exists, append otherwise. -/
def insertParam (ps : List (String × Json)) (k : String) (v : Json) :
    List (String × Json) :=
  if ps.any (fun kv => kv.1 = k) then
    ps.map (fun kv => if kv.1 = k then (k, v) else kv)
  else ps ++ [(k, v)]

/-- `HashMap::insert` for the file-slot map built by
`SendMediaGroup::files`. -/
def insertFileSlot (m : List (String × InputFile)) (k : String)
    (v : InputFile) : List (String × InputFile) :=
  if m.any (fun kv => kv.1 = k) then
    m.map (fun kv => if kv.1 = k then (k, v) else kv)
  else m ++ [(k, v)]

/-- The `SendPhoto` request record of `src/methods.rs`; the `photo` field is
`skip_serializing` and travels through `files()` instead. -/
structure SendPhoto where
  chat_id : ChatId
  photo : InputFile
  caption : Option String
  parse_mode : Option String
  caption_entities : Option Json
  disable_notification : Option Bool
  protect_content : Option Bool
  reply_to_message_id : Option Int
  allow_sending_without_reply : Option Bool
  reply_markup : Option Json
deriving Repr

/-- `SendPhoto::new`: only the required fields, all options `None`. -/
def SendPhoto.new (chat_id : ChatId) (photo : InputFile) : SendPhoto :=
  ⟨chat_id, photo, none, none, none, none, none, none, none, none⟩

/-- `params()` for `SendPhoto`: serde serialization with `photo` skipped and
`None` options omitted. -/
def SendPhoto.params (r : SendPhoto) : List (String × Json) :=
  [("chat_id", r.chat_id.toJson)]
  ++ optField "caption" (r.caption.map Json.str)
  ++ optField "parse_mode" (r.parse_mode.map Json.str)
  ++ optField "caption_entities" r.caption_entities
  ++ optField "disable_notification" (r.disable_notification.map Json.bool)
  ++ optField "protect_content" (r.protect_content.map Json.bool)
  ++ optField "reply_to_message_id" (r.reply_to_message_id.map Json.num)
  ++ optField "allow_sending_without_reply"
      (r.allow_sending_without_reply.map Json.bool)
  ++ optField "reply_markup" r.reply_markup

/-- `files()` for `SendPhoto`: the single slot named "photo". -/
def SendPhoto.files (r : SendPhoto) : List (String × InputFile) :=
  [("photo", r.photo)]

/-- The descriptor of a `SendPhoto` request (`endpoint` is "sendPhoto"). -/
def SendPhoto.toMethod (r : SendPhoto) : MethodDesc :=
  ⟨"sendPhoto", r.params, r.files⟩

/-- The `SendMediaGroup` request record of `src/methods.rs`. -/
structure SendMediaGroup where
  chat_id : ChatId
  media : List InputMedia
  disable_notification : Option Bool
  protect_content : Option Bool
  reply_to_message_id : Option Int
  allow_sending_without_reply : Option Bool
deriving Repr

/-- `SendMediaGroup::new`. -/
def SendMediaGroup.new (chat_id : ChatId) (media : List InputMedia) :
    SendMediaGroup :=
  ⟨chat_id, media, none, none, none, none⟩

/-- The per-item rewrite of `serialize_input_media` at the value level:
item at 0-based position `idx` becomes `prepare_input_media_param idx`. -/
def rewriteMediaGroup : List InputMedia → Nat → List InputMedia
  | [], _ => []
  | m :: rest, idx =>
    m.prepare_input_media_param idx :: rewriteMediaGroup rest (idx + 1)

/-- `serialize_input_media` of `src/methods.rs`: the `media` field is
serialized as the JSON array of the rewritten items. -/
def serialize_input_media (media : List InputMedia) : Json :=
  .arr ((rewriteMediaGroup media 0).map InputMedia.toJson)

/-- `params()` for `SendMediaGroup`: serde serialization with the custom
`media` serializer and `None` options omitted. -/
def SendMediaGroup.params (g : SendMediaGroup) : List (String × Json) :=
  [("chat_id", g.chat_id.toJson), ("media", serialize_input_media g.media)]
  ++ optField "disable_notification" (g.disable_notification.map Json.bool)
  ++ optField "protect_content" (g.protect_content.map Json.bool)
  ++ optField "reply_to_message_id" (g.reply_to_message_id.map Json.num)
  ++ optField "allow_sending_without_reply"
      (g.allow_sending_without_reply.map Json.bool)

/-- The loop body of `SendMediaGroup::files`: insert every pending part of
every item, walking the group with an incrementing index. -/
def mediaGroupFilesAux : List InputMedia → Nat →
    List (String × InputFile) → List (String × InputFile)
  | [], _, acc => acc
  | m :: rest, idx, acc =>
    mediaGroupFilesAux rest (idx + 1)
      ((m.prepare_input_media_file idx).foldl
        (fun a kv => insertFileSlot a kv.1 kv.2) acc)

/-- `files()` for `SendMediaGroup`: fold of `HashMap::insert` over the
pending parts of all items, index starting at 0. -/
def SendMediaGroup.files (g : SendMediaGroup) : List (String × InputFile) :=
  mediaGroupFilesAux g.media 0 []

/-- The descriptor of a `SendMediaGroup` request. -/
def SendMediaGroup.toMethod (g : SendMediaGroup) : MethodDesc :=
  ⟨"sendMediaGroup", g.params, g.files⟩

/-! ### Response envelope (`src/bot.rs`) -/

/-- The `ResponseParameters` struct of `src/types.rs`. -/
structure ResponseParameters where
  migrate_to_chat_id : Option Int
  retry_after : Option Int
deriving DecidableEq, Repr

/-- The `APIResponse` struct of `src/bot.rs`: the raw envelope. -/
structure APIResponse where
  ok : Bool
  error_code : Option Int
  result : Option Json
  description : Option String
  parameters : Option ResponseParameters
deriving Repr

/-- The `Error` struct of `src/bot.rs`: the typed protocol error. -/
structure Error where
  code : Int
  message : String
  parameters : Option ResponseParameters
deriving DecidableEq, Repr

/-- `Error::new_option`: missing code defaults to 400, missing message to
"server inter error.", parameters carried through. -/
def Error.new_option (code : Option Int) (message : Option String)
    (parameters : Option ResponseParameters) : Error :=
  ⟨code.getD 400, message.getD "server inter error.", parameters⟩

/-- `Error::not_found`: code 404, message "not found". -/
def Error.not_found : Error :=
  ⟨404, "not found", none⟩

/-- `APIResponse::parse`: the envelope passes through untouched when `ok` is
true; otherwise it becomes a typed error built by `Error::new_option`. -/
def APIResponse.parse (r : APIResponse) : Except Error APIResponse :=
  if r.ok then .ok r
  else .error (Error.new_option r.error_code r.description r.parameters)

/-! ### Dispatch engine (`src/bot.rs`, `impl BotApi`) -/

/-- One part of a multipart/form-data body: a text field or a file field. -/
inductive FormPart where
  | text (name : String) (value : String) : FormPart
  | file (name : String) (p : Part) : FormPart
deriving DecidableEq, Repr

/-- The body of the single HTTP POST a dispatch performs: one JSON document,
or one multipart form. -/
inductive Encoding where
  | jsonBody (params : List (String × Json)) : Encoding
  | multipartForm (parts : List FormPart) : Encoding
deriving Repr

/-- The single outgoing HTTP request of one dispatch. -/
structure HttpRequest where
  endpoint : String
  encoding : Encoding
deriving Repr

/-- The upload-probe closure inside `BotApi::request`: walk the file slots
and return true at the first one that needs upload. -/
def anyNeedUpload : List (String × InputFile) → Bool
  | [] => false
  | (_, f) :: rest => if f.need_upload then true else anyNeedUpload rest

/-- The file loop of `BotApi::upload_files`: resolve every slot in order
(the first open failure aborts), a text result becoming a text form field
and a binary result a file form field, both named by the slot. -/
def resolveFileParts (fs : Fs) :
    List (String × InputFile) → Except IoError (List FormPart)
  | [] => .ok []
  | (k, f) :: rest => do
    let r ← f.data fs
    let parts ← resolveFileParts fs rest
    match r with
    | .text t => .ok (.text k t :: parts)
    | .part p => .ok (.file k p :: parts)

/-- `BotApi::upload_files`: build the multipart form, first one text field
per ParameterMap entry holding the entry's compact JSON text
(`param_value.to_string()`), then one field per resolved slot; the form is
sent as the single POST.  An open failure aborts before the POST exists. -/
def upload_files (fs : Fs) (endpoint : String)
    (params : List (String × Json)) (files : List (String × InputFile)) :
    Except IoError HttpRequest :=
  match resolveFileParts fs files with
  | .error e => .error e
  | .ok fileParts =>
    .ok ⟨endpoint,
      .multipartForm
        (params.map (fun kv => FormPart.text kv.1 (Json.render kv.2))
          ++ fileParts)⟩

/-- The JSON-path loop of `BotApi::request`: resolve every file slot and
insert each text result into the ParameterMap under the slot name (the
binary arm is the empty `_ => {}` arm); errors propagate. -/
def insertJsonParams (fs : Fs) (params : List (String × Json)) :
    List (String × InputFile) → Except IoError (List (String × Json))
  | [] => .ok params
  | (k, f) :: rest => do
    let r ← f.data fs
    match r with
    | .text t => insertJsonParams fs (insertParam params k (.str t)) rest
    | .part _ => insertJsonParams fs params rest

/-- `BotApi::request`: probe the file slots; if any needs upload, dispatch
through `upload_files` (multipart), otherwise resolve the slots to text,
insert them into the ParameterMap and send it as the single JSON body
(`make_request`). -/
def request (fs : Fs) (m : MethodDesc) : Except IoError HttpRequest :=
  if anyNeedUpload m.files then
    upload_files fs m.endpoint m.params m.files
  else
    match insertJsonParams fs m.params m.files with
    | .error e => .error e
    | .ok ps => .ok ⟨m.endpoint, .jsonBody ps⟩

/-- The result unwrapping of `BotApi::send`, after the envelope of the
single response has been parsed: an `ok=false` envelope has already become
a typed error; an `ok=true` envelope yields its raw `result` value for
caller-side decoding when present, and `Error::not_found` otherwise. -/
def sendFromResponse (resp : APIResponse) : Except Error Json :=
  match resp.parse with
  | .error e => .error e
  | .ok r =>
    match r.result with
    | some v => .ok v
    | none => .error Error.not_found

/-! ### Envelope deserialization (serde derive for `APIResponse`)

`response.json::<APIResponse>()` deserializes the response body with the
derived `Deserialize` instance: a JSON object is walked field by field,
unknown fields are ignored, a duplicate known field is an error, `Option`
fields accept `null` and default to `None` when absent, and the one
non-optional field `ok` must be present as a boolean. -/

/-- Deserialize a `bool` field. -/
def asBool : Json → Except String Bool
  | .bool b => .ok b
  | _ => .error "invalid type"

/-- Deserialize an `Option<i32>` field (`null` is `None`). -/
def asOptI32 : Json → Except String (Option Int)
  | .null => .ok none
  | .num n =>
    if -2147483648 ≤ n ∧ n < 2147483648 then .ok (some n)
    else .error "out of range"
  | _ => .error "invalid type"

/-- Deserialize an `Option<i64>` field (`null` is `None`). -/
def asOptI64 : Json → Except String (Option Int)
  | .null => .ok none
  | .num n =>
    if -9223372036854775808 ≤ n ∧ n < 9223372036854775808 then .ok (some n)
    else .error "out of range"
  | _ => .error "invalid type"

/-- Deserialize an `Option<String>` field (`null` is `None`). -/
def asOptString : Json → Except String (Option String)
  | .null => .ok none
  | .str s => .ok (some s)
  | _ => .error "invalid type"

/-- Deserialize an `Option<serde_json::Value>` field: any value is accepted,
`null` is `None`. -/
def asOptValue : Json → Option Json
  | .null => none
  | v => some v

/-- Field walk of the derived `Deserialize` for `ResponseParameters`: the
two slots start unseen (`none`), a second occurrence of a seen field is an
error, unknown fields are skipped. -/
def responseParametersFold : List (String × Json) →
    Option (Option Int) → Option (Option Int) →
    Except String ResponseParameters
  | [], m, r => .ok ⟨m.getD none, r.getD none⟩
  | (k, v) :: rest, m, r =>
    if k = "migrate_to_chat_id" then
      match m with
      | some _ => .error "duplicate field"
      | none => do
        let n ← asOptI64 v
        responseParametersFold rest (some n) r
    else if k = "retry_after" then
      match r with
      | some _ => .error "duplicate field"
      | none => do
        let n ← asOptI64 v
        responseParametersFold rest m (some n)
    else responseParametersFold rest m r

/-- Derived `Deserialize` for `ResponseParameters`. -/
def ResponseParameters.fromJson : Json → Except String ResponseParameters
  | .obj fields => responseParametersFold fields none none
  | _ => .error "invalid type"

/-- Deserialize an `Option<ResponseParameters>` field (`null` is `None`). -/
def asOptResponseParameters (v : Json) :
    Except String (Option ResponseParameters) :=
  match v with
  | .null => .ok none
  | v => (ResponseParameters.fromJson v).map some

/-- Seen-state of the five fields of `APIResponse` during deserialization. -/
structure APIResponseSlots where
  okSlot : Option Bool
  errorCodeSlot : Option (Option Int)
  resultSlot : Option (Option Json)
  descriptionSlot : Option (Option String)
  parametersSlot : Option (Option ResponseParameters)

/-- Field walk of the derived `Deserialize` for `APIResponse`. -/
def apiResponseFold : List (String × Json) → APIResponseSlots →
    Except String APIResponseSlots
  | [], s => .ok s
  | (k, v) :: rest, s =>
    if k = "ok" then
      match s.okSlot with
      | some _ => .error "duplicate field"
      | none => do
        let b ← asBool v
        apiResponseFold rest { s with okSlot := some b }
    else if k = "error_code" then
      match s.errorCodeSlot with
      | some _ => .error "duplicate field"
      | none => do
        let n ← asOptI32 v
        apiResponseFold rest { s with errorCodeSlot := some n }
    else if k = "result" then
      match s.resultSlot with
      | some _ => .error "duplicate field"
      | none =>
        apiResponseFold rest { s with resultSlot := some (asOptValue v) }
    else if k = "description" then
      match s.descriptionSlot with
      | some _ => .error "duplicate field"
      | none => do
        let d ← asOptString v
        apiResponseFold rest { s with descriptionSlot := some d }
    else if k = "parameters" then
      match s.parametersSlot with
      | some _ => .error "duplicate field"
      | none => do
        let p ← asOptResponseParameters v
        apiResponseFold rest { s with parametersSlot := some p }
    else apiResponseFold rest s

/-- Derived `Deserialize` for `APIResponse`: a JSON object whose `ok` field
is a required boolean; every `Option` field defaults to `None`. -/
def APIResponse.fromJson : Json → Except String APIResponse
  | .obj fields => do
    let s ← apiResponseFold fields ⟨none, none, none, none, none⟩
    match s.okSlot with
    | none => .error "missing field ok"
    | some ok =>
      .ok ⟨ok, s.errorCodeSlot.getD none, s.resultSlot.getD none,
        s.descriptionSlot.getD none, s.parametersSlot.getD none⟩
  | _ => .error "invalid type"

/-! ### Counting and flattening the media-group pending parts -/

/-- Upload contribution of an optional thumbnail. -/
def thumbUploadCount : Option InputFile → Nat
  | some t => if t.need_upload then 1 else 0
  | none => 0

/-- Number of upload-requiring references (primary plus present thumbnail)
of one media item. -/
def InputMedia.uploadRefCount (m : InputMedia) : Nat :=
  (if m.primaryOf.need_upload then 1 else 0) + thumbUploadCount m.thumbOf

/-- Number of upload-requiring references across a media group. -/
def countUploadRefs (media : List InputMedia) : Nat :=
  (media.map InputMedia.uploadRefCount).sum

/-- The pending parts of all items, in order, before the `HashMap::insert`
folding: item at position `idx + i` contributes its own parts. -/
def mediaGroupParts : List InputMedia → Nat → List (String × InputFile)
  | [], _ => []
  | m :: rest, idx =>
    m.prepare_input_media_file idx ++ mediaGroupParts rest (idx + 1)

/-- Names of the synthetic attachment tokens the rewrite produces for one
item: the primary token exactly when the primary requires upload, then the
thumb token exactly when a thumbnail is present and requires upload.  The
embedded token is the name prefixed with attach:// (see the rewrite
characterization proved about `prepare_input_media_param`). -/
def InputMedia.syntheticTokens (m : InputMedia) (idx : Nat) : List String :=
  (if m.primaryOf.need_upload then [attach_file_name idx] else []) ++
  (match m.thumbOf with
   | some t => if t.need_upload then [attach_thumb_file_name idx] else []
   | none => [])

/-- Names of all synthetic tokens produced across a media group, in item
order, starting at index `idx`. -/
def mediaGroupTokens : List InputMedia → Nat → List String
  | [], _ => []
  | m :: rest, idx => m.syntheticTokens idx ++ mediaGroupTokens rest (idx + 1)

/-! ### Concrete inputs used by the claims -/

/-- A video item whose thumbnail is an already-hosted reference, so the
thumbnail does not need upload. -/
def videoThumbById : InputMediaVideo :=
  { InputMediaVideo.new (.fileID "vid") with thumb := some (.fileID "thumbid") }

/-- Last slash-separated component of a character list (helper for
`pathBaseName`). -/
def lastComponentAux : List Char → List Char → List Char
  | [], acc => acc.reverse
  | c :: rest, acc =>
    if c.toNat = 47 then lastComponentAux rest []
    else lastComponentAux rest (c :: acc)

/-- Modelled from the spec: the base name (final path component) that the
spec says a local-path part is named from.  The source code instead passes
the whole path to `Part::file_name`; this definition exists to compare the
two behaviours. -/
def pathBaseName (p : String) : String :=
  String.mk (lastComponentAux p.data [])

/-- The JSON envelope with ok true and result 42. -/
def envOkJson : Json :=
  .obj [("ok", .bool true), ("result", .num 42)]

/-- The JSON envelope with ok false, error code 403, description
Forbidden. -/
def envErrJson : Json :=
  .obj [("ok", .bool false), ("error_code", .num 403),
        ("description", .str "Forbidden")]

/-- A sendPhoto request with chat id 1 and an already-hosted photo. -/
def sendPhotoById : SendPhoto :=
  SendPhoto.new (.intType 1) (.fileID "AABBCC")

/-- The three-item media group of C5: item 0 already hosted, item 1 held in
memory, item 2 on the local file system; no thumbnails. -/
def mediaGroupEx : List InputMedia :=
  [ .photo (InputMediaPhoto.new (.fileID "id0")),
    .photo (InputMediaPhoto.new (.fileBytes "m1.jpg" [1, 2, 3])),
    .photo (InputMediaPhoto.new (.filePath "/tmp/m2.jpg")) ]

/-- The sendMediaGroup request over `mediaGroupEx`. -/
def sendMediaGroupEx : SendMediaGroup :=
  SendMediaGroup.new (.intType 1) mediaGroupEx

/-- A file system containing exactly the local file of `mediaGroupEx`. -/
def fsMediaEx : Fs :=
  fun p => if p = "/tmp/m2.jpg" then some [9, 9] else none

/-- A one-item media group whose single item needs upload. -/
def c2ExGroup : SendMediaGroup :=
  SendMediaGroup.new (.intType 0)
    [.photo (InputMediaPhoto.new (.fileBytes "a" [1]))]


/-! ### Arithmetic of the decimal rendering -/

theorem digitsAux_congr : ∀ (f₁ f₂ n : Nat), n < f₁ → n < f₂ →
    digitsAux f₁ n = digitsAux f₂ n := by
  intro f₁
  induction f₁ with
  | zero => intro f₂ n h₁ _; omega
  | succ g₁ ih =>
    intro f₂ n h₁ h₂
    match f₂ with
    | 0 => omega
    | g₂ + 1 =>
      show digitsAux (g₁ + 1) n = digitsAux (g₂ + 1) n
      by_cases hn : n < 10
      · simp [digitsAux, hn]
      · have hdiv : n / 10 < n := Nat.div_lt_self (by omega) (by omega)
        have hd : n / 10 < g₁ := by omega
        have hd₂ : n / 10 < g₂ := by omega
        simp only [digitsAux, if_neg hn]
        rw [ih g₂ (n / 10) hd hd₂]

/-- Unfolding equation for `natDigits`, free of fuel. -/
theorem natDigits_eq (n : Nat) :
    natDigits n =
      if n < 10 then [Char.ofNat (48 + n)]
      else natDigits (n / 10) ++ [Char.ofNat (48 + n % 10)] := by
  by_cases hn : n < 10
  · simp [natDigits, digitsAux, hn]
  · have hd : n / 10 < n := Nat.div_lt_self (by omega) (by omega)
    rw [if_neg hn]
    have hstep : digitsAux (n + 1) n
        = digitsAux n (n / 10) ++ [Char.ofNat (48 + n % 10)] := by
      simp [digitsAux, hn]
    show digitsAux (n + 1) n = _
    rw [hstep, digitsAux_congr n (n / 10 + 1) (n / 10) hd (Nat.lt_succ_self _)]
    rfl

theorem toNat_ofNat_digit (n : Nat) (h : n < 10) :
    (Char.ofNat (48 + n)).toNat = 48 + n := by
  interval_cases n <;> decide

theorem foldl_digits (n : Nat) : ∀ a : Nat,
    List.foldl (fun a c => 10 * a + (c.toNat - 48)) a (natDigits n)
      = a * 10 ^ (natDigits n).length + n := by
  induction n using Nat.strong_induction_on with
  | _ n ih =>
    intro a
    rw [natDigits_eq]
    by_cases hn : n < 10
    · simp only [if_pos hn, List.foldl_cons, List.foldl_nil, List.length_cons,
        List.length_nil]
      rw [toNat_ofNat_digit n hn]
      omega
    · have hd : n / 10 < n := Nat.div_lt_self (by omega) (by omega)
      simp only [if_neg hn, List.foldl_append, List.foldl_cons, List.foldl_nil,
        List.length_append, List.length_cons, List.length_nil]
      rw [ih (n / 10) hd a]
      rw [toNat_ofNat_digit (n % 10) (Nat.mod_lt _ (by omega))]
      have hmod : 48 + n % 10 - 48 = n % 10 := by omega
      rw [hmod, pow_succ]
      have hsplit : 10 * (n / 10) + n % 10 = n := Nat.div_add_mod n 10
      ring_nf
      omega

theorem digitsVal_natDigits (n : Nat) : digitsVal (natDigits n) = n := by
  have h := foldl_digits n 0
  simpa [digitsVal] using h

theorem natDigits_injective : Function.Injective natDigits := by
  intro i j h
  have := digitsVal_natDigits i
  rw [h, digitsVal_natDigits] at this
  omega

theorem natDigits_ne_nil (n : Nat) : natDigits n ≠ [] := by
  rw [natDigits_eq]
  by_cases hn : n < 10 <;> simp [hn]

theorem natDigits_all_digit (n : Nat) :
    ∀ c ∈ natDigits n, 48 ≤ c.toNat ∧ c.toNat ≤ 57 := by
  induction n using Nat.strong_induction_on with
  | _ n ih =>
    intro c hc
    rw [natDigits_eq] at hc
    by_cases hn : n < 10
    · rw [if_pos hn] at hc
      have : c = Char.ofNat (48 + n) := by simpa using hc
      subst this
      rw [toNat_ofNat_digit n hn]
      omega
    · rw [if_neg hn] at hc
      rcases List.mem_append.mp hc with h | h
      · exact ih (n / 10) (Nat.div_lt_self (by omega) (by omega)) c h
      · have : c = Char.ofNat (48 + n % 10) := by simpa using h
        subst this
        rw [toNat_ofNat_digit (n % 10) (Nat.mod_lt _ (by omega))]
        omega

theorem natRepr_injective : Function.Injective natRepr := by
  intro i j h
  apply natDigits_injective
  have := congrArg String.data h
  simpa [natRepr] using this

theorem string_ext (s t : String) (h : s.data = t.data) : s = t := by
  cases s; cases t; simp_all

theorem natDigits_getLast_le (n : Nat) :
    ∃ c, (natDigits n).getLast? = some c ∧ c.toNat ≤ 57 := by
  have hne := natDigits_ne_nil n
  have hsome : (natDigits n).getLast?.isSome := by
    rw [List.getLast?_isSome]; exact hne
  obtain ⟨c, hc⟩ := Option.isSome_iff_exists.mp hsome
  refine ⟨c, hc, ?_⟩
  exact (natDigits_all_digit n c (List.mem_of_getLast?_eq_some hc)).2

theorem attach_file_name_injective : Function.Injective attach_file_name := by
  intro i j h
  apply natRepr_injective
  have hd := congrArg String.data h
  simp only [attach_file_name, String.data_append] at hd
  exact string_ext _ _ (List.append_cancel_left hd)

theorem attach_thumb_file_name_injective :
    Function.Injective attach_thumb_file_name := by
  intro i j h
  apply natRepr_injective
  have hd := congrArg String.data h
  simp only [attach_thumb_file_name, String.data_append] at hd
  exact string_ext _ _
    (List.append_cancel_left (List.append_cancel_right hd))

theorem attach_file_name_ne_thumb (i j : Nat) :
    attach_file_name i ≠ attach_thumb_file_name j := by
  intro h
  have hd := congrArg String.data h
  simp only [attach_file_name, attach_thumb_file_name, String.data_append,
    List.append_assoc] at hd
  have hcancel : (natRepr i).data = (natRepr j).data ++ "-thumb".data :=
    List.append_cancel_left hd
  obtain ⟨c, hc, hle⟩ := natDigits_getLast_le i
  have hdata : (natRepr i).data = natDigits i := rfl
  rw [hdata] at hcancel
  rw [hcancel] at hc
  rw [List.getLast?_append_of_ne_nil _ (by decide)] at hc
  have hb : ("-thumb".data : List Char).getLast? = some (Char.ofNat 98) := by
    decide
  rw [hb] at hc
  have : c = Char.ofNat 98 := by injection hc.symm
  subst this
  revert hle
  decide

/-! ### Supporting lemmas about the engine -/

theorem string_append_assoc (a b c : String) :
    a ++ b ++ c = a ++ (b ++ c) := by
  apply string_ext
  simp [String.data_append, List.append_assoc]

theorem attach_file_eq (idx : Nat) :
    attach_file idx = .fileAttach ("attach://" ++ attach_file_name idx) := by
  unfold attach_file attach_file_name
  rw [← string_append_assoc]
  rfl

theorem attach_thumb_file_eq (idx : Nat) :
    attach_thumb_file idx
      = .fileAttach ("attach://" ++ attach_thumb_file_name idx) := by
  unfold attach_thumb_file attach_thumb_file_name
  rw [← string_append_assoc, ← string_append_assoc]
  rfl

theorem anyNeedUpload_iff (l : List (String × InputFile)) :
    anyNeedUpload l = true ↔ ∃ kv ∈ l, kv.2.need_upload = true := by
  induction l with
  | nil => simp [anyNeedUpload]
  | cons kv rest ih =>
    obtain ⟨k, f⟩ := kv
    simp only [anyNeedUpload]
    by_cases hf : f.need_upload = true
    · rw [if_pos hf]
      constructor
      · intro _; exact ⟨(k, f), List.mem_cons_self _ _, hf⟩
      · intro _; rfl
    · rw [if_neg hf, ih]
      constructor
      · rintro ⟨kv, hm, hu⟩
        exact ⟨kv, List.mem_cons_of_mem _ hm, hu⟩
      · rintro ⟨kv, hm, hu⟩
        rcases List.mem_cons.mp hm with hh | ht
        · subst hh; exact absurd hu hf
        · exact ⟨kv, ht, hu⟩

theorem data_text_of_not_need_upload (f : InputFile) (fs : Fs)
    (h : f.need_upload = false) :
    ∃ s, f.data fs = .ok (.text s) := by
  cases f <;> simp [InputFile.need_upload] at h <;>
    exact ⟨_, rfl⟩

theorem insertJsonParams_ok (fs : Fs) :
    ∀ (l : List (String × InputFile)) (params : List (String × Json)),
    (∀ kv ∈ l, kv.2.need_upload = false) →
    ∃ ps, insertJsonParams fs params l = .ok ps := by
  intro l
  induction l with
  | nil => exact fun params _ => ⟨params, rfl⟩
  | cons kv rest ih =>
    intro params hall
    obtain ⟨k, f⟩ := kv
    obtain ⟨s, hs⟩ :=
      data_text_of_not_need_upload f fs (hall (k, f) (List.mem_cons_self _ _))
    obtain ⟨ps, hps⟩ := ih (insertParam params k (.str s))
      (fun kv hkv => hall kv (List.mem_cons_of_mem _ hkv))
    refine ⟨ps, ?_⟩
    simp only [insertJsonParams, hs]
    exact hps

theorem resolveFileParts_error (fs : Fs) :
    ∀ l : List (String × InputFile),
    (∃ kv ∈ l, ∃ e, kv.2.data fs = .error e) →
    ∃ e, resolveFileParts fs l = .error e := by
  intro l
  induction l with
  | nil => rintro ⟨kv, hm, _⟩; simp at hm
  | cons kv rest ih =>
    rintro ⟨kv', hm, e, he⟩
    obtain ⟨k, f⟩ := kv
    rcases List.mem_cons.mp hm with hh | ht
    · subst hh
      refine ⟨e, ?_⟩
      simp only [resolveFileParts, he]
      rfl
    · match hd : f.data fs with
      | .error e₀ =>
        refine ⟨e₀, ?_⟩
        simp only [resolveFileParts, hd]
        rfl
      | .ok r =>
        obtain ⟨e₁, he₁⟩ := ih ⟨kv', ht, e, he⟩
        refine ⟨e₁, ?_⟩
        simp only [resolveFileParts, hd, he₁]
        rfl

/-! ### Supporting lemmas about the media-group rewrite -/

theorem prepare_file_shape (m : InputMedia) (idx : Nat) :
    m.prepare_input_media_file idx =
      (if m.primaryOf.need_upload
        then [(attach_file_name idx, m.primaryOf)] else []) ++
      (match m.thumbOf with
       | some t =>
         if t.need_upload then [(attach_thumb_file_name idx, t)] else []
       | none => []) := by
  cases m <;>
    simp [InputMedia.prepare_input_media_file, InputMedia.primaryOf,
      InputMedia.thumbOf]

theorem prepare_param_primary (m : InputMedia) (idx : Nat) :
    (m.prepare_input_media_param idx).primaryOf
      = if m.primaryOf.need_upload then attach_file idx else m.primaryOf := by
  cases m with
  | photo p =>
    by_cases h : p.media.need_upload <;>
      simp [InputMedia.prepare_input_media_param, InputMedia.primaryOf, h]
  | animation a =>
    simp [InputMedia.prepare_input_media_param, InputMedia.primaryOf]
  | document d =>
    simp [InputMedia.prepare_input_media_param, InputMedia.primaryOf]
  | audio a =>
    simp [InputMedia.prepare_input_media_param, InputMedia.primaryOf]
  | video v =>
    simp [InputMedia.prepare_input_media_param, InputMedia.primaryOf]

theorem prepare_param_thumb (m : InputMedia) (idx : Nat) :
    (m.prepare_input_media_param idx).thumbOf
      = match m.thumbOf with
        | some t =>
          if t.need_upload then some (attach_thumb_file idx) else none
        | none => none := by
  cases m with
  | photo p =>
    by_cases h : p.media.need_upload <;>
      simp [InputMedia.prepare_input_media_param, InputMedia.thumbOf, h]
  | animation a =>
    simp [InputMedia.prepare_input_media_param, InputMedia.thumbOf]
  | document d =>
    simp [InputMedia.prepare_input_media_param, InputMedia.thumbOf]
  | audio a =>
    simp [InputMedia.prepare_input_media_param, InputMedia.thumbOf]
  | video v =>
    simp [InputMedia.prepare_input_media_param, InputMedia.thumbOf]

theorem prepare_file_length (m : InputMedia) (idx : Nat) :
    (m.prepare_input_media_file idx).length = m.uploadRefCount := by
  rw [prepare_file_shape]
  unfold InputMedia.uploadRefCount
  rcases hth : m.thumbOf with _ | t <;>
    by_cases hp : m.primaryOf.need_upload <;>
    simp [thumbUploadCount, hp] <;>
    by_cases ht : t.need_upload <;> simp [ht]

theorem mediaGroupParts_length (media : List InputMedia) : ∀ idx : Nat,
    (mediaGroupParts media idx).length = countUploadRefs media := by
  induction media with
  | nil => intro idx; simp [mediaGroupParts, countUploadRefs]
  | cons m rest ih =>
    intro idx
    simp only [mediaGroupParts, List.length_append, prepare_file_length,
      ih (idx + 1), countUploadRefs, List.map_cons, List.sum_cons]

theorem prepare_file_key_cases (m : InputMedia) (idx : Nat) (k : String)
    (hk : k ∈ (m.prepare_input_media_file idx).map Prod.fst) :
    k = attach_file_name idx ∨ k = attach_thumb_file_name idx := by
  rw [prepare_file_shape] at hk
  simp only [List.map_append, List.mem_append] at hk
  rcases hk with hk | hk
  · left
    by_cases hp : m.primaryOf.need_upload <;> simp [hp] at hk
    exact hk
  · right
    rcases hth : m.thumbOf with _ | t <;> rw [hth] at hk
    · simp at hk
    · by_cases ht : t.need_upload <;> simp [ht] at hk
      exact hk

theorem mediaGroupParts_key_cases (media : List InputMedia) : ∀ idx k,
    k ∈ (mediaGroupParts media idx).map Prod.fst →
    ∃ j, idx ≤ j ∧ j < idx + media.length ∧
      (k = attach_file_name j ∨ k = attach_thumb_file_name j) := by
  induction media with
  | nil => intro idx k hk; simp [mediaGroupParts] at hk
  | cons m rest ih =>
    intro idx k hk
    simp only [mediaGroupParts, List.map_append, List.mem_append] at hk
    rcases hk with hk | hk
    · exact ⟨idx, Nat.le_refl _, by simp, prepare_file_key_cases m idx k hk⟩
    · obtain ⟨j, hj₁, hj₂, hj₃⟩ := ih (idx + 1) k hk
      exact ⟨j, by omega, by simp; omega, hj₃⟩

theorem attach_names_ne_of_ne (i j : Nat) (hij : i ≠ j) :
    attach_file_name i ≠ attach_file_name j :=
  fun h => hij (attach_file_name_injective h)

theorem attach_thumb_names_ne_of_ne (i j : Nat) (hij : i ≠ j) :
    attach_thumb_file_name i ≠ attach_thumb_file_name j :=
  fun h => hij (attach_thumb_file_name_injective h)

theorem prepare_file_keys_nodup (m : InputMedia) (idx : Nat) :
    ((m.prepare_input_media_file idx).map Prod.fst).Nodup := by
  rw [prepare_file_shape]
  have hne := attach_file_name_ne_thumb idx idx
  rcases hth : m.thumbOf with _ | t <;>
    by_cases hp : m.primaryOf.need_upload <;>
    simp [hp]
  · by_cases ht : t.need_upload <;> simp [ht]
    exact hne
  · by_cases ht : t.need_upload <;> simp [ht]

theorem mediaGroupParts_keys_nodup (media : List InputMedia) : ∀ idx,
    ((mediaGroupParts media idx).map Prod.fst).Nodup := by
  induction media with
  | nil => intro idx; simp [mediaGroupParts]
  | cons m rest ih =>
    intro idx
    simp only [mediaGroupParts, List.map_append]
    rw [List.nodup_append]
    refine ⟨prepare_file_keys_nodup m idx, ih (idx + 1), ?_⟩
    intro k hk hk'
    obtain ⟨j, hj₁, _, hj₃⟩ := mediaGroupParts_key_cases rest (idx + 1) k hk'
    have hjne : idx ≠ j := by omega
    rcases prepare_file_key_cases m idx k hk with h₁ | h₁ <;>
      rcases hj₃ with h₂ | h₂
    · exact attach_names_ne_of_ne idx j hjne (h₁ ▸ h₂ ▸ rfl)
    · exact attach_file_name_ne_thumb idx j (h₁ ▸ h₂ ▸ rfl)
    · exact attach_file_name_ne_thumb j idx (h₂ ▸ h₁ ▸ rfl)
    · exact attach_thumb_names_ne_of_ne idx j hjne (h₁ ▸ h₂ ▸ rfl)

theorem insertFileSlot_fresh (acc : List (String × InputFile)) (k : String)
    (v : InputFile) (hk : k ∉ acc.map Prod.fst) :
    insertFileSlot acc k v = acc ++ [(k, v)] := by
  unfold insertFileSlot
  rw [if_neg]
  intro hany
  obtain ⟨kv, hm, he⟩ := List.any_eq_true.mp hany
  exact hk (List.mem_map.mpr ⟨kv, hm, of_decide_eq_true he⟩)

theorem foldl_insertFileSlot_fresh :
    ∀ (l acc : List (String × InputFile)),
    (acc.map Prod.fst ++ l.map Prod.fst).Nodup →
    l.foldl (fun a kv => insertFileSlot a kv.1 kv.2) acc = acc ++ l := by
  intro l
  induction l with
  | nil => intro acc _; simp
  | cons kv rest ih =>
    intro acc hnd
    obtain ⟨k, v⟩ := kv
    have hk : k ∉ acc.map Prod.fst := by
      intro hmem
      rcases List.nodup_append.mp hnd with ⟨_, _, hdisj⟩
      exact hdisj hmem (by simp)
    simp only [List.foldl_cons]
    rw [insertFileSlot_fresh acc k v hk]
    have hnd' : ((acc ++ [(k, v)]).map Prod.fst ++ rest.map Prod.fst).Nodup := by
      have : (acc ++ [(k, v)]).map Prod.fst ++ rest.map Prod.fst
          = acc.map Prod.fst ++ ((k, v) :: rest).map Prod.fst := by
        simp
      rw [this]
      exact hnd
    rw [ih (acc ++ [(k, v)]) hnd', List.append_assoc]
    rfl

theorem mediaGroupFilesAux_eq_parts :
    ∀ (media : List InputMedia) (idx : Nat)
      (acc : List (String × InputFile)),
    (acc.map Prod.fst ++ (mediaGroupParts media idx).map Prod.fst).Nodup →
    mediaGroupFilesAux media idx acc = acc ++ mediaGroupParts media idx := by
  intro media
  induction media with
  | nil => intro idx acc _; simp [mediaGroupFilesAux, mediaGroupParts]
  | cons m rest ih =>
    intro idx acc hnd
    simp only [mediaGroupFilesAux, mediaGroupParts]
    simp only [mediaGroupParts, List.map_append, ← List.append_assoc]
      at hnd
    have hnd₁ : (acc.map Prod.fst
        ++ (m.prepare_input_media_file idx).map Prod.fst).Nodup :=
      hnd.sublist (List.sublist_append_left _ _)
    rw [foldl_insertFileSlot_fresh _ acc hnd₁]
    have hnd₂ : ((acc ++ m.prepare_input_media_file idx).map Prod.fst
        ++ (mediaGroupParts rest (idx + 1)).map Prod.fst).Nodup := by
      simpa [List.map_append, List.append_assoc] using hnd
    rw [ih (idx + 1) _ hnd₂, List.append_assoc]

/-- `SendMediaGroup::files` coincides with the plain in-order list of
pending parts: no `HashMap::insert` ever overwrites, because the generated
slot names are pairwise distinct. -/
theorem sendMediaGroup_files_eq (g : SendMediaGroup) :
    g.files = mediaGroupParts g.media 0 := by
  unfold SendMediaGroup.files
  rw [mediaGroupFilesAux_eq_parts g.media 0 []]
  · rfl
  · simpa using mediaGroupParts_keys_nodup g.media 0

theorem mediaGroupParts_mem_primary (media : List InputMedia) :
    ∀ (idx i : Nat) (h : i < media.length),
    (media.get ⟨i, h⟩).primaryOf.need_upload = true →
    (attach_file_name (idx + i), (media.get ⟨i, h⟩).primaryOf)
      ∈ mediaGroupParts media idx := by
  induction media with
  | nil => intro idx i h; simp at h
  | cons m rest ih =>
    intro idx i h hup
    match i with
    | 0 =>
      simp only [List.get] at hup ⊢
      simp only [mediaGroupParts, List.mem_append]
      left
      rw [prepare_file_shape, Nat.add_zero]
      simp [hup]
    | i + 1 =>
      simp only [List.get] at hup ⊢
      simp only [mediaGroupParts, List.mem_append]
      right
      have hi : i < rest.length := by
        simp only [List.length_cons] at h; omega
      have := ih (idx + 1) i hi hup
      have harith : idx + 1 + i = idx + (i + 1) := by omega
      rw [harith] at this
      exact this

theorem mediaGroupParts_mem_thumb (media : List InputMedia) :
    ∀ (idx i : Nat) (h : i < media.length) (t : InputFile),
    (media.get ⟨i, h⟩).thumbOf = some t → t.need_upload = true →
    (attach_thumb_file_name (idx + i), t) ∈ mediaGroupParts media idx := by
  induction media with
  | nil => intro idx i h; simp at h
  | cons m rest ih =>
    intro idx i h t hth hup
    match i with
    | 0 =>
      simp only [List.get] at hth ⊢
      simp only [mediaGroupParts, List.mem_append]
      left
      rw [prepare_file_shape, Nat.add_zero, hth]
      by_cases hp : m.primaryOf.need_upload <;> simp [hp, hup]
    | i + 1 =>
      simp only [List.get] at hth ⊢
      simp only [mediaGroupParts, List.mem_append]
      right
      have hi : i < rest.length := by
        simp only [List.length_cons] at h; omega
      have := ih (idx + 1) i hi t hth hup
      have harith : idx + 1 + i = idx + (i + 1) := by omega
      rw [harith] at this
      exact this

theorem filter_key_len_one {α : Type} (l : List (String × α)) (k : String)
    (hnd : (l.map Prod.fst).Nodup) (hmem : k ∈ l.map Prod.fst) :
    (l.filter (fun kv => kv.1 == k)).length = 1 := by
  induction l with
  | nil => simp at hmem
  | cons kv rest ih =>
    obtain ⟨k₀, v₀⟩ := kv
    simp only [List.map_cons, List.nodup_cons] at hnd
    by_cases hk : k₀ = k
    · subst hk
      have hrest : (rest.filter (fun kv => kv.1 == k₀)) = [] := by
        rw [List.filter_eq_nil_iff]
        intro a ha hbeq
        exact hnd.1 (List.mem_map.mpr ⟨a, ha, (eq_of_beq hbeq).symm ▸ rfl⟩)
      simp [List.filter_cons, hrest]
    · have hmem' : k ∈ rest.map Prod.fst := by
        rcases List.mem_cons.mp hmem with hh | ht
        · exact absurd hh.symm hk
        · exact ht
      have := ih hnd.2 hmem'
      have hbeq : ((k₀, v₀).1 == k) = false := by
        simp [hk]
      simp [List.filter_cons, hbeq, this]


theorem prepare_file_names (m : InputMedia) (idx : Nat) :
    (m.prepare_input_media_file idx).map Prod.fst
      = m.syntheticTokens idx := by
  rw [prepare_file_shape]
  unfold InputMedia.syntheticTokens
  rcases hth : m.thumbOf with _ | t <;>
    by_cases hp : m.primaryOf.need_upload <;>
    simp [hp]
  · by_cases ht : t.need_upload <;> simp [ht]
  · by_cases ht : t.need_upload <;> simp [ht]

theorem mediaGroupTokens_eq_keys (media : List InputMedia) : ∀ idx : Nat,
    mediaGroupTokens media idx = (mediaGroupParts media idx).map Prod.fst := by
  induction media with
  | nil => intro idx; simp [mediaGroupTokens, mediaGroupParts]
  | cons m rest ih =>
    intro idx
    simp [mediaGroupTokens, mediaGroupParts, List.map_append,
      prepare_file_names, ih (idx + 1)]

/-! ### The claims -/

/-- C1: for every method descriptor, dispatch picks the MULTIPART path if
and only if at least one file reference in its FileSlotSet requires physical
upload (FileBytes or FilePath); with an empty FileSlotSet, or with only
FileID, FileURL or FileAttach references, dispatch always picks the JSON
path (and succeeds). -/
theorem C1_dispatch_multipart_iff_upload (fs : Fs) (m : MethodDesc) :
    ((∃ kv ∈ m.files, kv.2.need_upload = true) →
      request fs m = upload_files fs m.endpoint m.params m.files)
    ∧ ((∀ kv ∈ m.files, kv.2.need_upload = false) →
      ∃ ps, request fs m = .ok ⟨m.endpoint, .jsonBody ps⟩)
    ∧ (m.files = [] → request fs m = .ok ⟨m.endpoint, .jsonBody m.params⟩)
    ∧ (∀ r parts, request fs m = .ok r → r.encoding = .multipartForm parts →
        ∃ kv ∈ m.files, kv.2.need_upload = true) := by
  refine ⟨?_, ?_, ?_, ?_⟩
  · intro hex
    unfold request
    rw [if_pos ((anyNeedUpload_iff m.files).mpr hex)]
  · intro hall
    unfold request
    have hany : anyNeedUpload m.files = false := by
      by_contra hne
      have : anyNeedUpload m.files = true := by
        revert hne; cases anyNeedUpload m.files <;> simp
      obtain ⟨kv, hm, hu⟩ := (anyNeedUpload_iff m.files).mp this
      rw [hall kv hm] at hu
      exact Bool.false_ne_true hu
    rw [hany]
    simp only [Bool.false_eq_true, if_false]
    obtain ⟨ps, hps⟩ := insertJsonParams_ok fs m.files m.params hall
    exact ⟨ps, by rw [hps]⟩
  · intro hnil
    unfold request
    rw [hnil]
    rfl
  · intro r parts hr henc
    by_cases hany : anyNeedUpload m.files = true
    · exact (anyNeedUpload_iff m.files).mp hany
    · exfalso
      unfold request at hr
      rw [if_neg hany] at hr
      match hj : insertJsonParams fs m.params m.files with
      | .error e => rw [hj] at hr; exact Except.noConfusion hr
      | .ok ps =>
        rw [hj] at hr
        have : r = ⟨m.endpoint, .jsonBody ps⟩ := by
          injection hr with h; exact h.symm
        subst this
        simp at henc

/-- Witness for C1 at a concrete descriptor holding one in-memory slot. -/
theorem C1_witness :
    request (fun _ => none)
        ⟨"sendDocument", [], [("document", .fileBytes "d" [1])]⟩
      = upload_files (fun _ => none) "sendDocument" []
          [("document", .fileBytes "d" [1])] :=
  (C1_dispatch_multipart_iff_upload (fun _ => none)
      ⟨"sendDocument", [], [("document", .fileBytes "d" [1])]⟩).1
    ⟨("document", .fileBytes "d" [1]), by simp, rfl⟩

/-- C2: for every media group, the list of synthetic token names produced
by the per-item rewrite equals, position by position, the list of pending
part names produced by files(), so in particular the number of synthetic
tokens equals the number of upload-requiring primary and thumbnail
references across the group and the generated names are pairwise distinct;
for every item at position i, the rewritten primary is the token
attach://file-i exactly when the original primary requires upload and is
the unchanged original otherwise, the rewritten thumbnail is the token
attach://file-i-thumb exactly when a thumbnail is present and requires
upload and is absent otherwise, and each embedded token attach://file-i
(resp. attach://file-i-thumb) has exactly one pending part named file-i
(resp. file-i-thumb) in files(). -/
theorem C2_media_group_rewrite_bijection (g : SendMediaGroup) :
    (g.files.map Prod.fst).Nodup
    ∧ mediaGroupTokens g.media 0 = g.files.map Prod.fst
    ∧ (mediaGroupTokens g.media 0).length = countUploadRefs g.media
    ∧ g.files.length = countUploadRefs g.media
    ∧ ∀ (i : Nat) (h : i < g.media.length),
        (((g.media.get ⟨i, h⟩).prepare_input_media_param i).primaryOf
            = if (g.media.get ⟨i, h⟩).primaryOf.need_upload
              then .fileAttach ("attach://" ++ attach_file_name i)
              else (g.media.get ⟨i, h⟩).primaryOf)
        ∧ (((g.media.get ⟨i, h⟩).prepare_input_media_param i).thumbOf
            = match (g.media.get ⟨i, h⟩).thumbOf with
              | some t =>
                if t.need_upload
                  then some (.fileAttach
                    ("attach://" ++ attach_thumb_file_name i))
                  else none
              | none => none)
        ∧ ((g.media.get ⟨i, h⟩).primaryOf.need_upload = true →
          ((g.media.get ⟨i, h⟩).prepare_input_media_param i).primaryOf
              = .fileAttach ("attach://" ++ attach_file_name i)
          ∧ (g.files.filter
              (fun kv => kv.1 == attach_file_name i)).length = 1)
        ∧ (∀ t, (g.media.get ⟨i, h⟩).thumbOf = some t →
            t.need_upload = true →
          ((g.media.get ⟨i, h⟩).prepare_input_media_param i).thumbOf
              = some (.fileAttach ("attach://" ++ attach_thumb_file_name i))
          ∧ (g.files.filter
              (fun kv => kv.1 == attach_thumb_file_name i)).length = 1) := by
  have hfe := sendMediaGroup_files_eq g
  have hnd : (g.files.map Prod.fst).Nodup := by
    rw [hfe]; exact mediaGroupParts_keys_nodup g.media 0
  have htok : mediaGroupTokens g.media 0 = g.files.map Prod.fst := by
    rw [hfe]; exact mediaGroupTokens_eq_keys g.media 0
  refine ⟨hnd, htok, ?_, ?_, ?_⟩
  · rw [htok, hfe, List.length_map]
    exact mediaGroupParts_length g.media 0
  · rw [hfe]; exact mediaGroupParts_length g.media 0
  · intro i h
    refine ⟨?_, ?_, ?_, ?_⟩
    · rw [prepare_param_primary, attach_file_eq]
    · rw [prepare_param_thumb, attach_thumb_file_eq]
    · intro hup
      refine ⟨?_, ?_⟩
      · rw [prepare_param_primary, if_pos hup, attach_file_eq]
      · apply filter_key_len_one g.files _ hnd
        have hm := mediaGroupParts_mem_primary g.media 0 i h hup
        rw [Nat.zero_add] at hm
        rw [hfe]
        exact List.mem_map.mpr ⟨_, hm, rfl⟩
    · intro t hth hut
      refine ⟨?_, ?_⟩
      · rw [prepare_param_thumb, hth]
        simp only [hut, if_true, attach_thumb_file_eq]
      · apply filter_key_len_one g.files _ hnd
        have hm := mediaGroupParts_mem_thumb g.media 0 i h t hth hut
        rw [Nat.zero_add] at hm
        rw [hfe]
        exact List.mem_map.mpr ⟨_, hm, rfl⟩

/-- Witness for C2 at a concrete one-item group needing upload. -/
theorem C2_witness :
    (c2ExGroup.files.filter
      (fun kv => kv.1 == attach_file_name 0)).length = 1 :=
  (((C2_media_group_rewrite_bijection c2ExGroup).2.2.2.2 0
      (by decide)).2.2.1 rfl).2

/-- C3 counterexample: a present thumbnail that does not require upload is
not left as-is by the rewrite; it is dropped.  The video item carries the
thumbnail FileID "thumbid", which needs no upload, yet the rewritten item
has no thumbnail at all. -/
theorem C3_counterexample :
    (InputMedia.video videoThumbById).thumbOf = some (.fileID "thumbid")
    ∧ (InputFile.fileID "thumbid").need_upload = false
    ∧ ((InputMedia.video videoThumbById).prepare_input_media_param 0).thumbOf
        = none :=
  ⟨rfl, rfl, rfl⟩

/-- C3 amended: for every media item at position i, a present thumbnail
that requires upload is substituted by the token attach://file-i-thumb; a
present thumbnail that does not require upload is dropped (absent from the
rewritten item), not left as-is; an absent thumbnail stays absent. -/
theorem C3_thumbnail_rule_amended (m : InputMedia) (idx : Nat) :
    (∀ t, m.thumbOf = some t → t.need_upload = true →
      (m.prepare_input_media_param idx).thumbOf
        = some (attach_thumb_file idx))
    ∧ (∀ t, m.thumbOf = some t → t.need_upload = false →
      (m.prepare_input_media_param idx).thumbOf = none)
    ∧ (m.thumbOf = none → (m.prepare_input_media_param idx).thumbOf = none) := by
  refine ⟨?_, ?_, ?_⟩
  · intro t ht hu
    rw [prepare_param_thumb, ht]
    simp [hu]
  · intro t ht hu
    rw [prepare_param_thumb, ht]
    simp [hu]
  · intro ht
    rw [prepare_param_thumb, ht]

/-- Witness for C3 at the concrete video item with a hosted thumbnail. -/
theorem C3_witness :
    ((InputMedia.video videoThumbById).prepare_input_media_param 7).thumbOf
      = none :=
  (C3_thumbnail_rule_amended (InputMedia.video videoThumbById) 7).2.1
    (.fileID "thumbid") rfl rfl

/-- C4 counterexample: resolving the local path /tmp/a.jpg produces a part
whose file name is the whole path, and the whole path differs from the base
name a.jpg the claim requires. -/
theorem C4_counterexample :
    InputFile.data (.filePath "/tmp/a.jpg")
        (fun p => if p = "/tmp/a.jpg" then some [1] else none)
      = .ok (.part ⟨"/tmp/a.jpg", [1]⟩)
    ∧ pathBaseName "/tmp/a.jpg" = "a.jpg"
    ∧ ("/tmp/a.jpg" : String) ≠ "a.jpg" :=
  ⟨rfl, by decide, by decide⟩

/-- C4 amended: resolving a FilePath reference produces a binary part whose
file name is the path string as given (not its base name); a failure to
open the local file is fatal for that call, occurring before any network
I/O — the dispatch yields an error and no HTTP request value — with no
retry. -/
theorem C4_local_path_resolution_amended (fs : Fs) (path : String) :
    (∀ b, fs path = some b →
      InputFile.data (.filePath path) fs = .ok (.part ⟨path, b⟩))
    ∧ (fs path = none →
      InputFile.data (.filePath path) fs = .error (.openFailed path))
    ∧ (∀ (m : MethodDesc) (name : String),
        (name, InputFile.filePath path) ∈ m.files → fs path = none →
        ∃ e, request fs m = .error e) := by
  refine ⟨?_, ?_, ?_⟩
  · intro b hb; simp [InputFile.data, hb]
  · intro hb; simp [InputFile.data, hb]
  · intro m name hmem hb
    have hup : anyNeedUpload m.files = true :=
      (anyNeedUpload_iff m.files).mpr
        ⟨(name, .filePath path), hmem, rfl⟩
    obtain ⟨e, he⟩ := resolveFileParts_error fs m.files
      ⟨(name, .filePath path), hmem, .openFailed path,
        by simp [InputFile.data, hb]⟩
    refine ⟨e, ?_⟩
    unfold request
    rw [if_pos hup]
    unfold upload_files
    rw [he]

/-- Witness for C4 at a concrete descriptor whose local file is missing. -/
theorem C4_witness :
    ∃ e, request (fun _ => none)
        ⟨"sendPhoto", [], [("photo", .filePath "/tmp/x")]⟩ = .error e :=
  (C4_local_path_resolution_amended (fun _ => none) "/tmp/x").2.2
    ⟨"sendPhoto", [], [("photo", .filePath "/tmp/x")]⟩ "photo" (by simp) rfl

/-- C5: for the three-item group (item 0 FileID, item 1 FileBytes, item 2
FilePath, no thumbnails) dispatch picks MULTIPART; the rewritten media
array keeps item 0 unchanged and replaces the references of items 1 and 2
by attach://file-1 and attach://file-2; and exactly two binary parts are
produced, named file-1 and file-2. -/
theorem C5_media_group_concrete :
    anyNeedUpload sendMediaGroupEx.toMethod.files = true
    ∧ request fsMediaEx sendMediaGroupEx.toMethod
        = .ok ⟨"sendMediaGroup",
            .multipartForm
              ([.text "chat_id" "1",
                .text "media"
                  (Json.render (serialize_input_media mediaGroupEx))]
                ++ [.file "file-1" ⟨"m1.jpg", [1, 2, 3]⟩,
                    .file "file-2" ⟨"/tmp/m2.jpg", [9, 9]⟩])⟩
    ∧ rewriteMediaGroup mediaGroupEx 0
      = [ .photo (InputMediaPhoto.new (.fileID "id0")),
          .photo (InputMediaPhoto.new (.fileAttach "attach://file-1")),
          .photo (InputMediaPhoto.new (.fileAttach "attach://file-2")) ]
    ∧ sendMediaGroupEx.toMethod.files
      = [("file-1", .fileBytes "m1.jpg" [1, 2, 3]),
         ("file-2", .filePath "/tmp/m2.jpg")] :=
  ⟨rfl, rfl, rfl, rfl⟩

/-- C6: envelope parsing fails exactly when ok is false, regardless of the
other fields; the envelope with ok true and result 42 parses successfully
exposing 42; the envelope with ok false, error code 403 and description
Forbidden parses to a typed error carrying 403 and Forbidden; absent code
and message are defaulted and the optional parameters hints are carried
through. -/
theorem C6_envelope_parse :
    (∀ resp : APIResponse, (∃ e, resp.parse = .error e) ↔ resp.ok = false)
    ∧ (∃ env, APIResponse.fromJson envOkJson = .ok env
        ∧ env.parse = .ok env ∧ env.result = some (.num 42))
    ∧ (∃ env, APIResponse.fromJson envErrJson = .ok env
        ∧ env.parse = .error ⟨403, "Forbidden", none⟩)
    ∧ (∀ (r : Option Json) (p : Option ResponseParameters),
        APIResponse.parse ⟨false, none, r, none, p⟩
          = .error ⟨400, "server inter error.", p⟩) := by
  refine ⟨?_, ?_, ?_, ?_⟩
  · intro resp
    unfold APIResponse.parse
    cases hok : resp.ok
    · simp
    · simp
  · exact ⟨⟨true, none, some (.num 42), none, none⟩, rfl, rfl, rfl⟩
  · exact ⟨⟨false, some 403, none, some "Forbidden", none⟩, rfl, rfl⟩
  · intro r p; rfl

/-- Witness for C6 at a concrete failing envelope. -/
theorem C6_witness :
    ∃ e, APIResponse.parse ⟨false, none, none, none, none⟩ = .error e :=
  (C6_envelope_parse.1 ⟨false, none, none, none, none⟩).mpr rfl

/-- C7: resolving a FileID, FileURL or FileAttach reference returns exactly
the wrapped string as text, independently of the file system (no I/O) and
of any repetition (the resolution is a pure function); only FilePath
resolution can consult the file system. -/
theorem C7_resolve_pure_idempotent (fs fs' : Fs) (s : String) :
    InputFile.data (.fileID s) fs = .ok (.text s)
    ∧ InputFile.data (.fileURL s) fs = .ok (.text s)
    ∧ InputFile.data (.fileAttach s) fs = .ok (.text s)
    ∧ ∀ f : InputFile, (∀ p, f ≠ .filePath p) →
        f.data fs = f.data fs' := by
  refine ⟨rfl, rfl, rfl, ?_⟩
  intro f hf
  cases f with
  | filePath p => exact absurd rfl (hf p)
  | _ => rfl

/-- Witness for C7 at the reference FileID abc and two file systems. -/
theorem C7_witness :
    InputFile.data (.fileID "abc") (fun _ => none)
      = InputFile.data (.fileID "abc") (fun _ => some [7]) :=
  (C7_resolve_pure_idempotent (fun _ => none) (fun _ => some [7]) "abc").2.2.2
    (.fileID "abc") (fun _ h => InputFile.noConfusion h)

/-- C8: the sendPhoto request with chat id 1 and photo FileID AABBCC takes
the JSON path and its body is exactly the object with chat_id 1 and photo
AABBCC: the non-upload reference is resolved to text and inserted into the
ParameterMap under its slot name photo. -/
theorem C8_send_photo_json_body (fs : Fs) :
    request fs sendPhotoById.toMethod
      = .ok ⟨"sendPhoto",
          .jsonBody [("chat_id", .num 1), ("photo", .str "AABBCC")]⟩
    ∧ Json.render (.obj [("chat_id", .num 1), ("photo", .str "AABBCC")])
      = "\x7b\"chat_id\":1,\"photo\":\"AABBCC\"\x7d" :=
  ⟨rfl, rfl⟩

/-- C9: when the parsed envelope has ok true but no result field, send
yields the error with code 404 and message not found instead of decoding;
a value is returned for decoding only when a result field is present. -/
theorem C9_missing_result_not_found :
    (∀ resp : APIResponse, resp.ok = true → resp.result = none →
      sendFromResponse resp = .error Error.not_found)
    ∧ Error.not_found.code = 404
    ∧ Error.not_found.message = "not found"
    ∧ (∀ (resp : APIResponse) (v : Json),
        sendFromResponse resp = .ok v → resp.result = some v) := by
  refine ⟨?_, rfl, rfl, ?_⟩
  · intro resp hok hres
    unfold sendFromResponse APIResponse.parse
    rw [hok]
    simp [hres]
  · intro resp v hv
    unfold sendFromResponse APIResponse.parse at hv
    cases hok : resp.ok
    · rw [hok] at hv
      simp at hv
    · rw [hok] at hv
      simp only [if_true] at hv
      match hres : resp.result with
      | none => rw [hres] at hv; simp at hv
      | some w =>
        rw [hres] at hv
        simp at hv
        rw [hv]

/-- Witness for C9 at a concrete ok envelope without result. -/
theorem C9_witness :
    sendFromResponse ⟨true, none, none, none, none⟩
      = .error Error.not_found :=
  C9_missing_result_not_found.1 ⟨true, none, none, none, none⟩ rfl rfl

/-- C10: on the MULTIPART path every ParameterMap entry is emitted as a text
form field holding the compact JSON text of its value; in particular a
string-valued parameter abc is sent as the five characters of its quoted
JSON literal, not as the bare string. -/
theorem C10_multipart_stringify :
    (∀ (fs : Fs) (endpoint : String) (params : List (String × Json))
        (files : List (String × InputFile)) (req : HttpRequest)
        (parts : List FormPart),
      upload_files fs endpoint params files = .ok req →
      req.encoding = .multipartForm parts →
      ∀ k v, (k, v) ∈ params → FormPart.text k (Json.render v) ∈ parts)
    ∧ (∀ s : String, ∃ mid : String,
        Json.render (.str s) = "\"" ++ mid ++ "\"")
    ∧ Json.render (.str "abc") = "\"abc\""
    ∧ (Json.render (.str "abc")).length = 5
    ∧ Json.render (.str "abc") ≠ "abc" := by
  refine ⟨?_, fun s => ⟨escapeString s, rfl⟩, rfl, rfl, by decide⟩
  intro fs endpoint params files req parts hreq henc k v hmem
  unfold upload_files at hreq
  match hres : resolveFileParts fs files with
  | .error e => rw [hres] at hreq; exact Except.noConfusion hreq
  | .ok fileParts =>
    rw [hres] at hreq
    injection hreq with hreq
    subst hreq
    simp only at henc
    injection henc with henc
    subst henc
    apply List.mem_append_left
    exact List.mem_map.mpr ⟨(k, v), hmem, rfl⟩

/-- Witness for C10 at a concrete one-parameter form. -/
theorem C10_witness :
    FormPart.text "k" "\"abc\""
      ∈ [FormPart.text "k" (Json.render (.str "abc"))] :=
  C10_multipart_stringify.1 (fun _ => none) "m" [("k", .str "abc")] []
    ⟨"m", .multipartForm [FormPart.text "k" (Json.render (.str "abc"))]⟩
    [FormPart.text "k" (Json.render (.str "abc"))] rfl rfl "k" (.str "abc")
    (by simp)

end Telegram
